import Mathlib

/-!
Verification of the sdh-crm deal-stage engine and HubSpot CSV import
pipeline, as a shallow embedding of the TypeScript sources:

  src/app/api/deals/[id]/stage/route.ts   (stage-change PATCH handler)
  src/app/api/deals/[id]/route.ts         (deal field-update PATCH handler)
  src/app/api/import/backup/route.ts      (deal-creation POST handler part)
  src/app/api/import/hubspot/route.ts     (CSV parser, field mappers,
                                           importers, import POST handler)
  src/app/(dashboard)/import/page.tsx     (client import sequencing)

Monetary values and probabilities are embedded as rationals (the source
stores decimals and computes in JS numbers), timestamps as naturals, and
database ids as strings.  Fallible operations return Except or Option.
-/

namespace SdhCrm

/-- The DealStage enumeration, from lib/validations.ts and the stage
mapping table in the import route. -/
inductive DealStage where
  | INQUIRY
  | DISCOVERY_CALL_SCHEDULED
  | PROPOSAL_NEEDED
  | PROPOSAL_SENT
  | PROPOSAL_REVIEWED
  | DECISION_MAKER
  | NEGOTIATION
  | CONTRACT
  | CLOSED_WON
  | CLOSED_LOST
deriving DecidableEq, Repr

/-- Closed status of a deal: unset is Option.none. -/
inductive ClosedStatus where
  | WON
  | LOST
deriving DecidableEq, Repr

/-- Lost-reason enumeration from lib/validations.ts. -/
inductive LostReason where
  | PRICE
  | TIMING
  | COMPETITOR
  | NO_BUDGET
  | NO_DECISION
  | WENT_SILENT
  | NOT_A_FIT
  | OTHER
deriving DecidableEq, Repr

/-- The string name of a stage, as stored in the database enum column. -/
def dealStageToString : DealStage → String
  | .INQUIRY => "INQUIRY"
  | .DISCOVERY_CALL_SCHEDULED => "DISCOVERY_CALL_SCHEDULED"
  | .PROPOSAL_NEEDED => "PROPOSAL_NEEDED"
  | .PROPOSAL_SENT => "PROPOSAL_SENT"
  | .PROPOSAL_REVIEWED => "PROPOSAL_REVIEWED"
  | .DECISION_MAKER => "DECISION_MAKER"
  | .NEGOTIATION => "NEGOTIATION"
  | .CONTRACT => "CONTRACT"
  | .CLOSED_WON => "CLOSED_WON"
  | .CLOSED_LOST => "CLOSED_LOST"

/-- Database-level validation of a stage enum string: the inverse of
dealStageToString, none for any string outside the enum (the database
and the generated client reject such values). -/
def parseDealStage (s : String) : Option DealStage :=
  if s = "INQUIRY" then some .INQUIRY
  else if s = "DISCOVERY_CALL_SCHEDULED" then some .DISCOVERY_CALL_SCHEDULED
  else if s = "PROPOSAL_NEEDED" then some .PROPOSAL_NEEDED
  else if s = "PROPOSAL_SENT" then some .PROPOSAL_SENT
  else if s = "PROPOSAL_REVIEWED" then some .PROPOSAL_REVIEWED
  else if s = "DECISION_MAKER" then some .DECISION_MAKER
  else if s = "NEGOTIATION" then some .NEGOTIATION
  else if s = "CONTRACT" then some .CONTRACT
  else if s = "CLOSED_WON" then some .CLOSED_WON
  else if s = "CLOSED_LOST" then some .CLOSED_LOST
  else none

/-- A deal row.  Columns not touched by the stage engine, the deal update
handler or the importers (source, projectType, estimatedHours, notes
relations) are omitted. -/
structure Deal where
  id : String
  name : String
  value : ℚ
  currency : String
  probability : ℚ
  weightedValue : ℚ
  stage : DealStage
  expectedCloseDate : Nat
  actualCloseDate : Option Nat
  closedStatus : Option ClosedStatus
  lostReason : Option LostReason
  lostReasonNote : Option String
  stageChangedAt : Nat
  companyId : String
  ownerId : String
  createdAt : Nat
deriving DecidableEq, Repr

/-- A DealStageHistory row. -/
structure DealStageHistory where
  dealId : String
  fromStage : Option DealStage
  toStage : DealStage
  changedById : String
  changedAt : Nat
deriving DecidableEq, Repr

/-- The parsed body of a PATCH to /api/deals/[id]/stage
(updateDealStageSchema). -/
structure StageChangeRequest where
  stage : DealStage
  lostReason : Option LostReason
  lostReasonNote : Option String
deriving DecidableEq, Repr

/-- The updated deal produced by the stage-change handler: the updateData
object of src/app/api/deals/[id]/stage/route.ts lines 34-55 applied to the
existing row.  stage and stageChangedAt are always set; the CLOSED_WON and
CLOSED_LOST branches additionally set the closing fields.  The lostReason
and lostReasonNote assignments are guarded by JS truthiness, so an empty
string note is not written. -/
def dealAfterStageChange (existing : Deal) (req : StageChangeRequest) (now : Nat) : Deal :=
  let base := { existing with stage := req.stage, stageChangedAt := now }
  if req.stage = .CLOSED_WON then
    { base with
        closedStatus := some .WON
        actualCloseDate := some now
        probability := 100
        weightedValue := existing.value }
  else if req.stage = .CLOSED_LOST then
    let b1 := { base with
        closedStatus := some .LOST
        actualCloseDate := some now
        probability := 0
        weightedValue := 0 }
    let b2 := match req.lostReason with
      | some r => { b1 with lostReason := some r }
      | none => b1
    match req.lostReasonNote with
      | some s => if s = "" then b2 else { b2 with lostReasonNote := some s }
      | none => b2
  else
    base

/-- The DealStageHistory row inserted by the stage-change handler
(lines 79-86): fromStage is the pre-transition stage, toStage the
requested stage. -/
def stageHistoryRow (existing : Deal) (req : StageChangeRequest) (now : Nat)
    (userId : String) : DealStageHistory :=
  { dealId := existing.id
    fromStage := some existing.stage
    toStage := req.stage
    changedById := userId
    changedAt := now }

/-- A database write inside a transaction. -/
inductive TxOp where
  | updateDeal (d : Deal)
  | insertHistory (h : DealStageHistory)
deriving DecidableEq, Repr

/-- The visible database state for the stage engine. -/
structure DBState where
  deals : List Deal
  history : List DealStageHistory
deriving DecidableEq, Repr

/-- Replace the deal with the given id. -/
def updateDealList (deals : List Deal) (id : String) (d : Deal) : List Deal :=
  deals.map (fun e => if e.id = id then d else e)

/-- Apply one transactional write to the database state. -/
def applyOp (db : DBState) : TxOp → DBState
  | .updateDeal d => { db with deals := updateDealList db.deals d.id d }
  | .insertHistory h => { db with history := db.history ++ [h] }

/-- The single prisma.$transaction issued by the stage-change handler
(lines 57-87): the deal update and the history insert, in that order. -/
def stageChangeTxn (existing : Deal) (req : StageChangeRequest) (now : Nat)
    (userId : String) : List TxOp :=
  [.updateDeal (dealAfterStageChange existing req now),
   .insertHistory (stageHistoryRow existing req now userId)]

/-- Transactional execution: a transaction commits as a whole or leaves
the state untouched. -/
def runTxn (db : DBState) (ops : List TxOp) (commit : Bool) : DBState :=
  if commit then ops.foldl applyOp db else db

/-- The whole stage-change PATCH handler on a found deal: run a single
transaction holding the deal update and the history insert. -/
def changeStage (db : DBState) (existing : Deal) (req : StageChangeRequest)
    (now : Nat) (userId : String) (commit : Bool) : DBState :=
  runTxn db (stageChangeTxn existing req now userId) commit

/-- The parsed body of a PATCH to /api/deals/[id] (updateDealSchema, a
optional-field form of createDealSchema; fields the Deal embedding omits are
omitted here as well).  The schema has no weightedValue field, so a field
update can never set weightedValue directly. -/
structure UpdateDealInput where
  name : Option String
  value : Option ℚ
  currency : Option String
  probability : Option ℚ
  stage : Option DealStage
  expectedCloseDate : Option Nat
  companyId : Option String
deriving DecidableEq, Repr

/-- The deal field-update PATCH handler of src/app/api/deals/[id]/route.ts
lines 112-146: spread the parsed payload over the existing row, then
recompute weightedValue from the pending value and probability exactly when
the payload touches value or probability. -/
def updateDeal (existing : Deal) (inp : UpdateDealInput) : Deal :=
  let spread := { existing with
      name := inp.name.getD existing.name
      value := inp.value.getD existing.value
      currency := inp.currency.getD existing.currency
      probability := inp.probability.getD existing.probability
      stage := inp.stage.getD existing.stage
      expectedCloseDate := inp.expectedCloseDate.getD existing.expectedCloseDate
      companyId := inp.companyId.getD existing.companyId }
  let newValue := inp.value.getD existing.value
  let newProbability := inp.probability.getD existing.probability
  if inp.value.isSome ∨ inp.probability.isSome then
    { spread with weightedValue := newValue * newProbability / 100 }
  else
    spread

/-- The parsed body of a POST to /api/deals (createDealSchema; fields the
Deal embedding omits are omitted here as well). -/
structure CreateDealInput where
  name : String
  value : ℚ
  currency : Option String
  probability : Option ℚ
  stage : Option DealStage
  expectedCloseDate : Nat
  companyId : String
deriving DecidableEq, Repr

/-- Modelled from the spec: the Prisma schema file is not among the
sources, so the database default for Deal.stage when creation omits it is
taken from the spec, which states the first open stage (INQUIRY). -/
def defaultDealStage : DealStage := .INQUIRY

/-- The raw toStage string the deal-creation handler writes into the
nested stageHistory create (src/app/api/import/backup/route.ts line 224,
the deals collection POST): the supplied stage, or the literal string
QUALIFIED when the payload omits the stage. -/
def historyToStageRaw (stage : Option DealStage) : String :=
  match stage with
  | some s => dealStageToString s
  | none => "QUALIFIED"

/-- Database error surfaced by a create call. -/
inductive DbError where
  | invalidEnum
deriving DecidableEq, Repr

/-- The deal-creation POST handler (deals collection route, lines
196-248): probability defaults to 50, weightedValue is computed as
value * probability / 100, and the deal is created together with one
nested DealStageHistory row with fromStage null.  The toStage string of the nested
row must be a member of the stage enum or the whole create
is rejected, creating nothing. -/
def createDeal (inp : CreateDealInput) (userId : String) (now : Nat) :
    Except DbError (Deal × DealStageHistory) :=
  let probability := inp.probability.getD 50
  let weightedValue := inp.value * probability / 100
  match parseDealStage (historyToStageRaw inp.stage) with
  | none => .error .invalidEnum
  | some toStage =>
  let deal : Deal :=
    { id := "new"
      name := inp.name
      value := inp.value
      currency := inp.currency.getD "USD"
      probability := probability
      weightedValue := weightedValue
      stage := inp.stage.getD defaultDealStage
      expectedCloseDate := inp.expectedCloseDate
      actualCloseDate := none
      closedStatus := none
      lostReason := none
      lostReasonNote := none
      stageChangedAt := now
      companyId := inp.companyId
      ownerId := userId
      createdAt := now }
  let row : DealStageHistory :=
    { dealId := deal.id
      fromStage := none
      toStage := toStage
      changedById := userId
      changedAt := now }
  .ok (deal, row)

/-! CSV parser (src/app/api/import/hubspot/route.ts lines 7-54).  The
embedding works over character lists and models the JS string primitives
the source relies on (trim, split, the edge-quote regex) explicitly. -/

/-- The ASCII whitespace recognised by the JS trim used on CSV fields. -/
def isJsSpace (c : Char) : Bool :=
  c = ' ' ∨ c = '\t' ∨ c = '\n' ∨ c = '\r' ∨ c = '\x0b' ∨ c = '\x0c'

/-- JS String.prototype.trim on a character list. -/
def jsTrimList (cs : List Char) : List Char :=
  ((cs.dropWhile isJsSpace).reverse.dropWhile isJsSpace).reverse

/-- JS String.prototype.trim. -/
def jsTrim (s : String) : String := ⟨jsTrimList s.data⟩

/-- JS String.prototype.split on a one-character separator. -/
def splitOnChar (sep : Char) : List Char → List (List Char)
  | [] => [[]]
  | c :: rest =>
    if c = sep then [] :: splitOnChar sep rest
    else
      match splitOnChar sep rest with
      | [] => [[c]]
      | l :: ls => (c :: l) :: ls

/-- The character scan of parseCSVLine (lines 7-32): a single
left-to-right pass maintaining the inQuotes flag.  A quote toggles
quoting unless it is an escaped quote (two consecutive quotes while
quoting, collapsing to one literal quote); a comma outside quotes ends
the current field. -/
def parseCSVLineAux : List Char → Bool → List Char → List (List Char) → List (List Char)
  | [], _, current, result => result ++ [current]
  | c :: rest, inQuotes, current, result =>
    if c = '"' then
      if inQuotes then
        match rest with
        | c2 :: rest2 =>
          if c2 = '"' then parseCSVLineAux rest2 true (current ++ ['"']) result
          else parseCSVLineAux (c2 :: rest2) false current result
        | [] => parseCSVLineAux [] false current result
      else parseCSVLineAux rest true current result
    else if c = ',' ∧ inQuotes = false then
      parseCSVLineAux rest inQuotes [] (result ++ [current])
    else
      parseCSVLineAux rest inQuotes (current ++ [c]) result

/-- parseCSVLine on a character list. -/
def parseCSVLineList (line : List Char) : List (List Char) :=
  parseCSVLineAux line false [] []

/-- parseCSVLine on a string. -/
def parseCSVLine (line : String) : List String :=
  (parseCSVLineList line.data).map String.mk

/-- The per-field cleanup of parseCSV line 47: the regex strips one
leading and one trailing quote character from the extracted field. -/
def stripEdgeQuotes (cs : List Char) : List Char :=
  let s1 := if cs.head? = some '"' then cs.tail else cs
  if s1.getLast? = some '"' then s1.dropLast else s1

/-- One parsed record: header name to cleaned field value, in header
order.  Later assignments to the same header shadow earlier ones, as for
a JS object, so lookups read the list from the right. -/
def recGet (rec : List (String × String)) (k : String) : Option String :=
  rec.reverse.lookup k

/-- Build one record from the header list and the field values of a data
line (lines 45-49): missing trailing values become the empty string, each
value loses one leading and one trailing quote and is trimmed. -/
def buildRecord (headers values : List (List Char)) : List (String × String) :=
  headers.enum.map fun p =>
    (String.mk p.2, String.mk (jsTrimList (stripEdgeQuotes (values.getD p.1 []))))

/-- parseCSV (lines 34-54): split on raw newlines, drop lines blank after
trimming, use the first remaining line as headers, and build a record per
further line.  The values.length > 0 guard of line 44 is kept although the
line scanner always returns at least one field. -/
def parseCSV (csvContent : String) : List (List (String × String)) :=
  let lines := (splitOnChar '\n' csvContent.data).filter (fun l => ¬ jsTrimList l = [])
  match lines with
  | [] => []
  | [_] => []
  | headerLine :: rows =>
    let headers := parseCSVLineList headerLine
    rows.foldr
      (fun row acc =>
        let values := parseCSVLineList row
        if values.length > 0 then buildRecord headers values :: acc else acc)
      []

/-! Field mappers (src/app/api/import/hubspot/route.ts lines 70-144) and
the JS numeric primitives they use. -/

/-- Numeric value of a list of decimal digits. -/
def digitsToNat (ds : List Char) : Nat :=
  ds.foldl (fun acc c => acc * 10 + (c.toNat - 48)) 0

/-- The leading decimal digit run, none when absent: the digit-consuming
core of JS parseInt in base 10. -/
def digitRunVal (cs : List Char) : Option Nat :=
  let ds := cs.takeWhile Char.isDigit
  if ds = [] then none else some (digitsToNat ds)

/-- JS parseInt in base 10: skip leading whitespace, optional sign,
longest leading digit run; NaN (none) when no digit follows. -/
def jsParseInt (s : String) : Option Int :=
  match s.data.dropWhile isJsSpace with
  | '-' :: rest => (digitRunVal rest).map (fun n => -(n : Int))
  | '+' :: rest => (digitRunVal rest).map (fun n => (n : Int))
  | cs => (digitRunVal cs).map (fun n => (n : Int))

/-- Exponent suffix of a JS float literal: optional sign and digit run;
an empty or invalid exponent contributes factor zero exponent, as
parseFloat then stops before the letter e. -/
def jsParseExp (cs : List Char) : Int :=
  match cs with
  | '-' :: rest => ((digitRunVal rest).map (fun n => -(n : Int))).getD 0
  | '+' :: rest => ((digitRunVal rest).map (fun n => (n : Int))).getD 0
  | _ => ((digitRunVal cs).map (fun n => (n : Int))).getD 0

/-- JS parseFloat: skip leading whitespace, optional sign, digits with an
optional fraction and exponent, parsing the longest valid numeric
leading part and ignoring what follows; NaN (none) when no digit occurs.
Infinity literals do not occur in the budget strings and are omitted. -/
def jsParseFloat (s : String) : Option ℚ :=
  let cs0 := s.data.dropWhile isJsSpace
  let signAndRest : ℚ × List Char :=
    match cs0 with
    | '-' :: rest => (-1, rest)
    | '+' :: rest => (1, rest)
    | _ => (1, cs0)
  let sign := signAndRest.1
  let cs1 := signAndRest.2
  let intDigits := cs1.takeWhile Char.isDigit
  let afterInt := cs1.drop intDigits.length
  let fracDigits :=
    match afterInt with
    | '.' :: rest => rest.takeWhile Char.isDigit
    | _ => []
  let afterFrac :=
    match afterInt with
    | '.' :: rest => rest.drop fracDigits.length
    | _ => afterInt
  if intDigits = [] ∧ fracDigits = [] then none
  else
    let mantissa : ℚ :=
      (digitsToNat intDigits : ℚ) + (digitsToNat fracDigits : ℚ) / ((10 : ℚ) ^ fracDigits.length)
    let e : Int :=
      match afterFrac with
      | 'e' :: rest => jsParseExp rest
      | 'E' :: rest => jsParseExp rest
      | _ => 0
    some (sign * mantissa * (10 : ℚ) ^ e)

/-- JS truthiness of a possibly absent string: present and non-empty. -/
def jsTruthy (v : Option String) : Bool :=
  match v with
  | some s => ¬ s = ""
  | none => false

/-- Lifecycle-stage to company-type mapping (lines 81-92); unrecognised
or empty input falls back to PROSPECT. -/
def mapLifecycleStageToCompanyType (stage : String) : String :=
  if stage = "Lead" then "LEAD"
  else if stage = "Marketing Qualified Lead" then "LEAD"
  else if stage = "Sales Qualified Lead" then "PROSPECT"
  else if stage = "Opportunity" then "PROSPECT"
  else if stage = "Customer" then "CUSTOMER"
  else if stage = "Evangelist" then "CUSTOMER"
  else if stage = "Other" then "PROSPECT"
  else "PROSPECT"

/-- HubSpot deal-stage name to internal stage mapping (lines 94-108);
unrecognised or empty input falls back to INQUIRY.  The source maps to
the string name of the enum member; the embedding returns the member. -/
def mapDealStage (hubspotStage : String) : DealStage :=
  if hubspotStage = "Website Form Submission" then .INQUIRY
  else if hubspotStage = "Discovery Call Scheduled" then .DISCOVERY_CALL_SCHEDULED
  else if hubspotStage = "Proposal Needed" then .PROPOSAL_NEEDED
  else if hubspotStage = "Proposal Sent" then .PROPOSAL_SENT
  else if hubspotStage = "Proposal Under Review" then .PROPOSAL_REVIEWED
  else if hubspotStage = "With Decision Maker" then .DECISION_MAKER
  else if hubspotStage = "Negotiation" then .NEGOTIATION
  else if hubspotStage = "Contract Sent" then .CONTRACT
  else if hubspotStage = "Closed Won" then .CLOSED_WON
  else if hubspotStage = "Closed Lost" then .CLOSED_LOST
  else .INQUIRY

/-- Budget or revenue string to amount (lines 110-131): strip dollar
signs and thousands separators; a less-than shape takes its first digit
run; a two-part dash range averages the digits-only parts; otherwise the
cleaned text goes through parseFloat; anything unparseable yields 0. -/
def parseBudget (budgetStr : String) : ℚ :=
  if budgetStr = "" ∨ jsTrim budgetStr = "" then 0
  else
    let cleaned := jsTrim ⟨budgetStr.data.filter (fun c => ¬ (c = '$' ∨ c = ','))⟩
    if cleaned.data.contains '<' then
      match digitRunVal (cleaned.data.dropWhile (fun c => ¬ c.isDigit)) with
      | some n => (n : ℚ)
      | none => 0
    else if cleaned.data.contains '-' then
      let rangeParts := splitOnChar '-' cleaned.data
      if rangeParts.length = 2 then
        let minDigits := (jsTrimList (rangeParts.getD 0 [])).filter Char.isDigit
        let maxDigits := (jsTrimList (rangeParts.getD 1 [])).filter Char.isDigit
        if minDigits = [] ∨ maxDigits = [] then 0
        else ((digitsToNat minDigits : ℚ) + (digitsToNat maxDigits : ℚ)) / 2
      else ((jsParseFloat cleaned).getD 0)
    else ((jsParseFloat cleaned).getD 0)

/-- Employee-count string to company-size bucket (lines 133-144). -/
def mapCompanySize (employeeCount : String) : Option String :=
  if employeeCount = "" then none
  else
    match jsParseInt employeeCount with
    | none => none
    | some count =>
      if count = 1 then some "SOLO"
      else if count ≤ 10 then some "SMALL"
      else if count ≤ 50 then some "MEDIUM"
      else if count ≤ 200 then some "LARGE"
      else if count ≤ 1000 then some "ENTERPRISE"
      else some "CORPORATION"

/-- parseHubSpotDate (lines 71-79): blank input gives none, otherwise the
result of the environment-defined JS Date parser, supplied as an oracle
mapping the string to a timestamp or none when invalid. -/
def parseHubSpotDate (dateOracle : String → Option Nat) (dateStr : String) : Option Nat :=
  if dateStr = "" ∨ jsTrim dateStr = "" then none
  else dateOracle dateStr

/-! Importers (src/app/api/import/hubspot/route.ts lines 56-68 and
188-400).  Database create calls can throw; the embedding receives an
oracle mapping the record position to none (success) or the thrown error
message.  The JS Date constructor used for Create Date columns is an
oracle as well, its parsing being environment-defined. -/

/-- One entry of the consolidated error list. -/
structure ImportError where
  record : String
  reason : String
deriving DecidableEq, Repr

/-- Per source-file counters plus the error entries (lines 62-68). -/
structure ImportResult where
  imported : Nat
  skipped : Nat
  failed : Nat
  total : Nat
  errors : List ImportError
deriving DecidableEq, Repr

/-- Whether a required column is blank: absent or trimming to empty,
as the JS test on an optionally chained trim. -/
def blankField (rec : List (String × String)) (k : String) : Bool :=
  match recGet rec k with
  | none => true
  | some s => jsTrim s = ""

/-- The trimmed-or-null idiom used on optional columns. -/
def optTrimmed (v : Option String) : Option String :=
  match v with
  | none => none
  | some s => if jsTrim s = "" then none else some (jsTrim s)

/-- The trimmed-or-empty idiom used on contact names. -/
def trimOrEmpty (v : Option String) : String :=
  match v with
  | none => ""
  | some s => jsTrim s

/-- The prisma.company.create payload of importCompanies (lines
205-240). -/
structure CompanyCreateData where
  name : String
  domain : Option String
  website : Option String
  phone : Option String
  city : Option String
  state : Option String
  postalCode : Option String
  country : Option String
  industry : Option String
  companySize : Option String
  annualRevenue : Option ℚ
  type : String
  source : String
  ownerId : String
  createdAt : Nat
deriving DecidableEq, Repr

/-- Build the company payload from one parsed record. -/
def companyCreateData (rec : List (String × String)) (uid : String)
    (dateOracle : String → Option Nat) (now : Nat) : CompanyCreateData :=
  { name := jsTrim ((recGet rec "Company name").getD "")
    domain := optTrimmed (recGet rec "Company Domain Name")
    website := optTrimmed (recGet rec "Website URL")
    phone := optTrimmed (recGet rec "Phone Number")
    city := optTrimmed (recGet rec "City")
    state := optTrimmed (recGet rec "State/Region")
    postalCode := optTrimmed (recGet rec "Postal Code")
    country := optTrimmed (recGet rec "Country/Region")
    industry := optTrimmed (recGet rec "Industry")
    companySize := mapCompanySize ((recGet rec "Number of Employees").getD "")
    annualRevenue :=
      if jsTruthy (recGet rec "Annual Revenue") then
        some (parseBudget ((recGet rec "Annual Revenue").getD ""))
      else none
    type := mapLifecycleStageToCompanyType ((recGet rec "Lifecycle Stage").getD "")
    source := "OTHER"
    ownerId := uid
    createdAt := (parseHubSpotDate dateOracle ((recGet rec "Create Date").getD "")).getD now }

/-- The record label of a failed company row: the raw Company name
column when truthy, Unknown otherwise. -/
def companyFailLabel (rec : List (String × String)) : String :=
  if jsTruthy (recGet rec "Company name") then (recGet rec "Company name").getD ""
  else "Unknown"

/-- The record label of a failed contact row: the trimmed concatenation
of the raw name columns when truthy, Unknown otherwise. -/
def contactFailLabel (rec : List (String × String)) : String :=
  let raw := ((recGet rec "First Name").getD "") ++ " " ++ ((recGet rec "Last Name").getD "")
  if jsTrim raw = "" then "Unknown" else jsTrim raw

/-- The record label of a failed deal row: the raw Deal Name column or
Unknown, with the raw Deal Stage column or the word empty in
parentheses. -/
def dealFailLabel (rec : List (String × String)) : String :=
  let nm := if jsTruthy (recGet rec "Deal Name") then (recGet rec "Deal Name").getD ""
    else "Unknown"
  let st := if jsTruthy (recGet rec "Deal Stage") then (recGet rec "Deal Stage").getD ""
    else "empty"
  "Deal: " ++ nm ++ " (stage: \"" ++ st ++ "\")"

/-- Result of importCompanies: the counters, the external-ID to internal
ID mapping, and the (id, name) rows created in the database. -/
structure CompaniesImport where
  result : ImportResult
  companyMap : List (String × String)
  companies : List (String × String)
deriving DecidableEq, Repr

/-- The record loop of importCompanies (lines 197-250): a blank company
name skips the record, a throwing create fails it, otherwise it is
imported and the Record ID column is mapped to the new internal id.
A record with no Record ID column maps the JS undefined key, which no
string lookup can hit, so the embedding adds no entry. -/
def importCompaniesGo (uid : String) (dateOracle : String → Option Nat) (now : Nat)
    (dbError : Nat → Option String) :
    List (List (String × String)) → Nat → ImportResult →
    List (String × String) → List (String × String) → CompaniesImport
  | [], _, res, cmap, created => ⟨res, cmap, created⟩
  | rec :: rest, i, res, cmap, created =>
    if blankField rec "Company name" then
      let res2 := { res with skipped := res.skipped + 1 }
      let res3 := { res2 with errors := res2.errors ++
        [⟨"Row " ++ toString (res2.imported + res2.skipped + res2.failed),
          "Missing company name"⟩] }
      importCompaniesGo uid dateOracle now dbError rest (i + 1) res3 cmap created
    else
      match dbError i with
      | some msg =>
        let res2 := { res with failed := res.failed + 1 }
        let res3 := { res2 with errors := res2.errors ++
          [⟨"Company: " ++ companyFailLabel rec, msg⟩] }
        importCompaniesGo uid dateOracle now dbError rest (i + 1) res3 cmap created
      | none =>
        let data := companyCreateData rec uid dateOracle now
        let cid := "company-" ++ toString i
        let cmap2 :=
          match recGet rec "Record ID" with
          | some k => cmap ++ [(k, cid)]
          | none => cmap
        importCompaniesGo uid dateOracle now dbError rest (i + 1)
          { res with imported := res.imported + 1 } cmap2 (created ++ [(cid, data.name)])

/-- importCompanies (lines 189-253). -/
def importCompanies (csvContent : String) (uid : String)
    (dateOracle : String → Option Nat) (now : Nat)
    (dbError : Nat → Option String) : CompaniesImport :=
  let records := parseCSV csvContent
  importCompaniesGo uid dateOracle now dbError records 0 ⟨0, 0, 0, records.length, []⟩ [] []

/-- The prisma.contact.create payload of importContacts (lines
302-317). -/
structure ContactCreateData where
  firstName : String
  lastName : String
  email : Option String
  phone : Option String
  mobilePhone : Option String
  jobTitle : Option String
  linkedinUrl : Option String
  companyId : Option String
  status : String
  source : String
  ownerId : String
  createdAt : Nat
deriving DecidableEq, Repr

/-- A JS Map lookup: the last set wins. -/
def lookupLast (m : List (String × String)) (k : String) : Option String :=
  m.reverse.lookup k

/-- Company resolution for a contact (lines 272-300): split the
Associated Company IDs column on semicolons and take the first id the
company map knows; otherwise fall back to a case-insensitive exact name
match against the existing companies; otherwise none. -/
def resolveContactCompanyId (companyMap companies : List (String × String))
    (rec : List (String × String)) : Option String :=
  let fromIds :=
    if jsTruthy (recGet rec "Associated Company IDs") then
      (splitOnChar ';' ((recGet rec "Associated Company IDs").getD "").data).findSome?
        (fun idCs => lookupLast companyMap (jsTrim ⟨idCs⟩))
    else none
  match fromIds with
  | some cid => some cid
  | none =>
    if ¬ trimOrEmpty (recGet rec "Company Name") = "" then
      (companies.find? (fun c =>
        c.2.toLower = (jsTrim ((recGet rec "Company Name").getD "")).toLower)).map
        (fun c => c.1)
    else none

/-- Build the contact payload from one parsed record and the resolved
company id. -/
def contactCreateData (rec : List (String × String)) (uid : String)
    (companyId : Option String) (dateOracle : String → Option Nat)
    (now : Nat) : ContactCreateData :=
  { firstName := trimOrEmpty (recGet rec "First Name")
    lastName := trimOrEmpty (recGet rec "Last Name")
    email := optTrimmed (recGet rec "Email")
    phone := optTrimmed (recGet rec "Phone Number")
    mobilePhone := optTrimmed (recGet rec "Mobile Phone Number")
    jobTitle := optTrimmed (recGet rec "Job Title")
    linkedinUrl := optTrimmed (recGet rec "LinkedIn URL")
    companyId := companyId
    status := "ACTIVE"
    source := "OTHER"
    ownerId := uid
    createdAt := (parseHubSpotDate dateOracle ((recGet rec "Create Date").getD "")).getD now }

/-- The record loop of importContacts (lines 264-326). -/
def importContactsGo (uid : String) (companyMap companies : List (String × String))
    (dateOracle : String → Option Nat) (now : Nat) (dbError : Nat → Option String) :
    List (List (String × String)) → Nat → ImportResult →
    List ContactCreateData → ImportResult × List ContactCreateData
  | [], _, res, created => (res, created)
  | rec :: rest, i, res, created =>
    if blankField rec "First Name" ∧ blankField rec "Last Name" then
      let res2 := { res with skipped := res.skipped + 1 }
      let res3 := { res2 with errors := res2.errors ++
        [⟨"Row " ++ toString (res2.imported + res2.skipped + res2.failed),
          "Missing first and last name"⟩] }
      importContactsGo uid companyMap companies dateOracle now dbError rest (i + 1) res3 created
    else
      match dbError i with
      | some msg =>
        let res2 := { res with failed := res.failed + 1 }
        let res3 := { res2 with errors := res2.errors ++
          [⟨"Contact: " ++ contactFailLabel rec, msg⟩] }
        importContactsGo uid companyMap companies dateOracle now dbError rest (i + 1) res3 created
      | none =>
        let cid := resolveContactCompanyId companyMap companies rec
        let data := contactCreateData rec uid cid dateOracle now
        importContactsGo uid companyMap companies dateOracle now dbError rest (i + 1)
          { res with imported := res.imported + 1 } (created ++ [data])

/-- importContacts (lines 256-329).  The companies parameter carries the
(id, name) rows present in the database when the fallback name search
runs. -/
def importContacts (csvContent : String) (uid : String)
    (companyMap companies : List (String × String))
    (dateOracle : String → Option Nat) (now : Nat)
    (dbError : Nat → Option String) : ImportResult × List ContactCreateData :=
  let records := parseCSV csvContent
  importContactsGo uid companyMap companies dateOracle now dbError records 0
    ⟨0, 0, 0, records.length, []⟩ []

/-- The prisma.deal.create payload of importDeals, with one optional slot
per deal column so that the columns the payload leaves to database
defaults are visible (lines 367-387 set exactly seven fields). -/
structure DealCreateInputData where
  name : Option String
  value : Option ℚ
  currency : Option String
  probability : Option ℚ
  weightedValue : Option ℚ
  stage : Option DealStage
  expectedCloseDate : Option Nat
  actualCloseDate : Option Nat
  closedStatus : Option ClosedStatus
  lostReason : Option LostReason
  lostReasonNote : Option String
  stageChangedAt : Option Nat
  companyId : Option String
  ownerId : Option String
  createdAt : Option Nat
deriving DecidableEq, Repr

/-- Build the deal payload from one parsed record (lines 359-387): the
amount comes from the Amount column through parseBudget or defaults to
1000, the close date from the Close Date column or now plus thirty days,
the stage through the deal-stage mapping; every record is anchored to the
fallback company. -/
def importDealData (rec : List (String × String)) (defaultCompanyId uid : String)
    (dateOracle : String → Option Nat) (now : Nat) : DealCreateInputData :=
  let amount :=
    if jsTruthy (recGet rec "Amount") then parseBudget ((recGet rec "Amount").getD "")
    else 1000
  let closeDate :=
    (parseHubSpotDate dateOracle ((recGet rec "Close Date").getD "")).getD
      (now + 30 * 24 * 60 * 60 * 1000)
  let mappedStage := mapDealStage ((recGet rec "Deal Stage").getD "")
  { name := some (jsTrim ((recGet rec "Deal Name").getD ""))
    value := some amount
    currency := none
    probability := none
    weightedValue := none
    stage := some mappedStage
    expectedCloseDate := some closeDate
    actualCloseDate := none
    closedStatus := none
    lostReason := none
    lostReasonNote := none
    stageChangedAt := none
    companyId := some defaultCompanyId
    ownerId := some uid
    createdAt := some now }

/-- The record loop of importDeals (lines 351-397). -/
def importDealsGo (defaultCompanyId uid : String) (dateOracle : String → Option Nat)
    (now : Nat) (dbError : Nat → Option String) :
    List (List (String × String)) → Nat → ImportResult →
    List DealCreateInputData → ImportResult × List DealCreateInputData
  | [], _, res, created => (res, created)
  | rec :: rest, i, res, created =>
    if blankField rec "Deal Name" then
      let res2 := { res with skipped := res.skipped + 1 }
      let res3 := { res2 with errors := res2.errors ++
        [⟨"Row " ++ toString (res2.imported + res2.skipped + res2.failed),
          "Missing deal name"⟩] }
      importDealsGo defaultCompanyId uid dateOracle now dbError rest (i + 1) res3 created
    else
      match dbError i with
      | some msg =>
        let res2 := { res with failed := res.failed + 1 }
        let res3 := { res2 with errors := res2.errors ++ [⟨dealFailLabel rec, msg⟩] }
        importDealsGo defaultCompanyId uid dateOracle now dbError rest (i + 1) res3 created
      | none =>
        let data := importDealData rec defaultCompanyId uid dateOracle now
        importDealsGo defaultCompanyId uid dateOracle now dbError rest (i + 1)
          { res with imported := res.imported + 1 } (created ++ [data])

/-- importDeals (lines 332-400).  The companies parameter carries the
(id, name) rows in the database; the first one is the fallback anchor,
and when none exists a placeholder Unknown Company row is created. -/
def importDeals (csvContent : String) (uid : String)
    (companies : List (String × String)) (dateOracle : String → Option Nat)
    (now : Nat) (dbError : Nat → Option String) :
    ImportResult × List DealCreateInputData :=
  let records := parseCSV csvContent
  let defaultCompanyId :=
    match companies.head? with
    | some c => c.1
    | none => "company-unknown"
  importDealsGo defaultCompanyId uid dateOracle now dbError records 0
    ⟨0, 0, 0, records.length, []⟩ []

/-- Database defaults for the deal columns the import payload leaves
unset; the Prisma schema fixing their concrete values is not among the
sources, so theorems quantify over them. -/
structure DealDefaults where
  probability : ℚ
  weightedValue : ℚ
deriving DecidableEq, Repr

/-- The probability stored for a created deal: the payload value or the
schema default. -/
def materializedProbability (p : DealCreateInputData) (defs : DealDefaults) : ℚ :=
  p.probability.getD defs.probability

/-- The weighted value stored for a created deal: the payload value or
the schema default. -/
def materializedWeightedValue (p : DealCreateInputData) (defs : DealDefaults) : ℚ :=
  p.weightedValue.getD defs.weightedValue

/-! The import POST handler (src/app/api/import/hubspot/route.ts lines
402-482) and the client-side sequencing of the import page
(src/app/(dashboard)/import/page.tsx lines 79-194), abstracted to the
traces of externally visible steps they run. -/

/-- The externally visible steps of the import POST handler. -/
inductive ImportEffect where
  | EnsureDefaultUser
  | CreateBackup
  | ClearSeedData
  | RunImportCompanies
  | RunImportContacts
  | RunImportDeals
deriving DecidableEq, Repr

/-- A POST /api/import/hubspot request: the authorization of the caller and
the three optional multipart file contents. -/
structure HubspotImportRequest where
  authorized : Bool
  companiesFile : Option String
  contactsFile : Option String
  dealsFile : Option String
deriving DecidableEq, Repr

/-- The step trace of the import POST handler: reject unauthenticated
callers and empty uploads before any mutation; otherwise ensure the
default user, clear the existing business data, and run the per-type
importers for the files supplied.  The handler contains no backup
step. -/
def hubspotImportTrace (req : HubspotImportRequest) : List ImportEffect :=
  if ¬ req.authorized then []
  else if req.companiesFile = none ∧ req.contactsFile = none ∧ req.dealsFile = none then []
  else
    [.EnsureDefaultUser, .ClearSeedData]
      ++ (if req.companiesFile.isSome then [.RunImportCompanies] else [])
      ++ (if req.contactsFile.isSome then [.RunImportContacts] else [])
      ++ (if req.dealsFile.isSome then [.RunImportDeals] else [])

/-- The externally visible steps of the client-side handleImport. -/
inductive ClientImportStep where
  | BackupAttempt (succeeded : Bool)
  | PostImportRequest
deriving DecidableEq, Repr

/-- The client-side sequencing of handleImport: with no uploaded file it
stops; otherwise it awaits handleBackupDatabase, which catches its own
failure and only shows a toast, and then posts the import request in
either case. -/
def handleImportClientTrace (anyFileUploaded backupSucceeds : Bool) : List ClientImportStep :=
  if ¬ anyFileUploaded then []
  else [.BackupAttempt backupSucceeds, .PostImportRequest]

/-! Concrete fixtures and small generic helpers used by the theorems. -/

/-- Number of occurrences of an element in a list. -/
def occurrences {α : Type} [DecidableEq α] (x : α) (l : List α) : Nat :=
  (l.filter (fun y => y = x)).length

/-- A character that is not a quote, comma, newline or whitespace: the
characters that pass through the CSV field scanner, the edge-quote strip
and the trim untouched. -/
def plainChar (c : Char) : Prop :=
  ¬ c = '"' ∧ ¬ c = ',' ∧ ¬ c = '\n' ∧ isJsSpace c = false

instance (c : Char) : Decidable (plainChar c) := by
  unfold plainChar
  infer_instance

/-- An open-stage deal fixture. -/
def deal0 : Deal :=
  { id := "d1"
    name := "Site redesign"
    value := 1000
    currency := "USD"
    probability := 60
    weightedValue := 600
    stage := .INQUIRY
    expectedCloseDate := 9
    actualCloseDate := none
    closedStatus := none
    lostReason := none
    lostReasonNote := none
    stageChangedAt := 3
    companyId := "c1"
    ownerId := "u1"
    createdAt := 0 }

/-- A deal closed as won. -/
def wonDeal0 : Deal :=
  { deal0 with
      stage := .CLOSED_WON
      closedStatus := some .WON
      probability := 100
      weightedValue := 1000
      actualCloseDate := some 3 }

/-- A deal closed as lost, carrying a lost-reason note. -/
def lostDeal0 : Deal :=
  { deal0 with
      stage := .CLOSED_LOST
      closedStatus := some .LOST
      probability := 0
      weightedValue := 0
      actualCloseDate := some 3
      lostReason := some .TIMING
      lostReasonNote := some "old note" }

/-- A stage-change request naming the current stage of the deal itself. -/
def sameStageReq : StageChangeRequest := ⟨.INQUIRY, none, none⟩

/-- A stage-change request reopening a closed deal. -/
def reopenReq : StageChangeRequest := ⟨.INQUIRY, none, none⟩

/-- A closed-lost request supplying a reason and an empty note. -/
def lostEmptyNoteReq : StageChangeRequest := ⟨.CLOSED_LOST, some .PRICE, some ""⟩

/-- A deal-creation payload that omits the stage. -/
def createInpNoStage : CreateDealInput :=
  { name := "Imported site"
    value := 100
    currency := none
    probability := none
    stage := none
    expectedCloseDate := 5
    companyId := "c1" }

/-- A deal-creation payload that supplies a stage. -/
def createInpContract : CreateDealInput :=
  { createInpNoStage with stage := some .CONTRACT }

/-- An authorized import request uploading one companies file. -/
def importReq0 : HubspotImportRequest :=
  { authorized := true
    companiesFile := some "Company name\nAcme"
    contactsFile := none
    dealsFile := none }

/-! Helper lemmas about the stage-change handler. -/

theorem dealAfterStageChange_id (e : Deal) (req : StageChangeRequest) (now : Nat) :
    (dealAfterStageChange e req now).id = e.id := by
  rcases req with ⟨s, lr, note⟩
  cases s <;> cases lr <;> cases note <;>
    simp only [dealAfterStageChange] <;> split_ifs <;> rfl

theorem dealAfterStageChange_stageChangedAt (e : Deal) (req : StageChangeRequest) (now : Nat) :
    (dealAfterStageChange e req now).stageChangedAt = now := by
  rcases req with ⟨s, lr, note⟩
  cases s <;> cases lr <;> cases note <;>
    simp only [dealAfterStageChange] <;> split_ifs <;> rfl

theorem dealAfterStageChange_stage (e : Deal) (req : StageChangeRequest) (now : Nat) :
    (dealAfterStageChange e req now).stage = req.stage := by
  rcases req with ⟨s, lr, note⟩
  cases s <;> cases lr <;> cases note <;>
    simp only [dealAfterStageChange] <;> split_ifs <;> rfl

theorem dealAfterStageChange_open (e : Deal) (req : StageChangeRequest) (now : Nat)
    (h1 : ¬ req.stage = .CLOSED_WON) (h2 : ¬ req.stage = .CLOSED_LOST) :
    dealAfterStageChange e req now = { e with stage := req.stage, stageChangedAt := now } := by
  unfold dealAfterStageChange
  rw [if_neg h1, if_neg h2]

theorem dealAfterStageChange_won (e : Deal) (req : StageChangeRequest) (now : Nat)
    (h : req.stage = .CLOSED_WON) :
    dealAfterStageChange e req now =
      { e with stage := req.stage, stageChangedAt := now, closedStatus := some .WON,
               actualCloseDate := some now, probability := 100, weightedValue := e.value } := by
  unfold dealAfterStageChange
  rw [if_pos h]

theorem dealAfterStageChange_lost_core (e : Deal) (req : StageChangeRequest) (now : Nat)
    (h : req.stage = .CLOSED_LOST) :
    (dealAfterStageChange e req now).closedStatus = some .LOST ∧
    (dealAfterStageChange e req now).probability = 0 ∧
    (dealAfterStageChange e req now).weightedValue = 0 ∧
    (dealAfterStageChange e req now).actualCloseDate = some now := by
  rcases req with ⟨s, lr, note⟩
  simp only at h
  subst h
  cases lr <;> cases note <;>
    simp only [dealAfterStageChange] <;> split_ifs <;> simp_all

theorem dealAfterStageChange_lost_reason (e : Deal) (req : StageChangeRequest) (now : Nat)
    (h : req.stage = .CLOSED_LOST) (r : LostReason) (hr : req.lostReason = some r) :
    (dealAfterStageChange e req now).lostReason = some r := by
  rcases req with ⟨s, lr, note⟩
  simp only at h hr
  subst h
  subst hr
  cases note <;> simp only [dealAfterStageChange] <;> split_ifs <;> simp_all

theorem dealAfterStageChange_lost_note (e : Deal) (req : StageChangeRequest) (now : Nat)
    (h : req.stage = .CLOSED_LOST) (s : String) (hs : req.lostReasonNote = some s)
    (hne : ¬ s = "") :
    (dealAfterStageChange e req now).lostReasonNote = some s := by
  rcases req with ⟨st, lr, note⟩
  simp only at h hs
  subst h
  subst hs
  cases lr <;> simp only [dealAfterStageChange] <;> split_ifs <;> simp_all

theorem changeStage_commit_eq (db : DBState) (e : Deal) (req : StageChangeRequest)
    (now : Nat) (uid : String) :
    changeStage db e req now uid true =
      { deals := updateDealList db.deals e.id (dealAfterStageChange e req now)
        history := db.history ++ [stageHistoryRow e req now uid] } := by
  unfold changeStage runTxn stageChangeTxn
  simp [List.foldl, applyOp, dealAfterStageChange_id]

/-- C6: for every stage change, the deal field update and the insertion
of the DealStageHistory row recording fromStage and toStage sit in one
transaction, so either both commit, leaving the updated deal and the
appended history row, or neither does and the database is unchanged. -/
theorem stageChange_update_and_history_atomic (db : DBState) (e : Deal)
    (req : StageChangeRequest) (now : Nat) (uid : String) (commit : Bool) :
    changeStage db e req now uid commit =
      if commit then
        { deals := updateDealList db.deals e.id (dealAfterStageChange e req now)
          history := db.history ++ [stageHistoryRow e req now uid] }
      else db := by
  cases commit
  · simp [changeStage, runTxn]
  · simpa using changeStage_commit_eq db e req now uid

/-- C2 counterexample: requesting the current stage the deal already has is not a
no-op: on a concrete deal the call moves stageChangedAt from 3 to 7 and
appends a DealStageHistory row with fromStage = toStage. -/
theorem sameStage_call_mutates_cex :
    sameStageReq.stage = deal0.stage ∧
    ¬ dealAfterStageChange deal0 sameStageReq 7 = deal0 ∧
    (dealAfterStageChange deal0 sameStageReq 7).stageChangedAt = 7 ∧
    deal0.stageChangedAt = 3 ∧
    (changeStage ⟨[deal0], []⟩ deal0 sameStageReq 7 "u1" true).history =
      [{ dealId := "d1", fromStage := some .INQUIRY, toStage := .INQUIRY,
         changedById := "u1", changedAt := 7 }] := by
  decide

/-- C2 amended: a stage-change call whose newStage equals the current
stage is processed like any other transition: stageChangedAt is set to
the call time and one DealStageHistory row is appended, with fromStage
and toStage both the current stage. -/
theorem sameStage_call_updates_time_and_history (db : DBState) (e : Deal)
    (req : StageChangeRequest) (now : Nat) (uid : String) (h : req.stage = e.stage) :
    (dealAfterStageChange e req now).stageChangedAt = now ∧
    (dealAfterStageChange e req now).stage = e.stage ∧
    (changeStage db e req now uid true).history =
      db.history ++ [{ dealId := e.id, fromStage := some e.stage, toStage := e.stage,
                       changedById := uid, changedAt := now }] := by
  refine ⟨dealAfterStageChange_stageChangedAt e req now, ?_, ?_⟩
  · rw [dealAfterStageChange_stage, h]
  · rw [changeStage_commit_eq]
    simp [stageHistoryRow, h]

/-- C2 amended, witness: the concrete same-stage call on deal0. -/
theorem sameStage_call_updates_time_and_history_witness :
    (dealAfterStageChange deal0 sameStageReq 7).stageChangedAt = 7 ∧
    (dealAfterStageChange deal0 sameStageReq 7).stage = deal0.stage ∧
    (changeStage ⟨[deal0], []⟩ deal0 sameStageReq 7 "u1" true).history =
      [] ++ [{ dealId := deal0.id, fromStage := some deal0.stage, toStage := deal0.stage,
               changedById := "u1", changedAt := 7 }] :=
  sameStage_call_updates_time_and_history ⟨[deal0], []⟩ deal0 sameStageReq 7 "u1" (by decide)

/-- C3 counterexample: moving a concrete closed-won deal back to the
open INQUIRY stage leaves closedStatus still WON, against the claimed
invariant that an open stage implies closedStatus unset. -/
theorem reopen_retains_closedStatus_cex :
    (dealAfterStageChange wonDeal0 reopenReq 7).stage = .INQUIRY ∧
    (dealAfterStageChange wonDeal0 reopenReq 7).closedStatus = some .WON ∧
    ¬ (dealAfterStageChange wonDeal0 reopenReq 7).closedStatus = none := by
  decide

/-- C3 amended: closing transitions establish the closed-stage
invariants and creation leaves closedStatus unset, but an open-stage
transition carries closedStatus, probability and weightedValue over
unchanged, so a closed deal moved back to an open stage keeps its closed
status. -/
theorem closed_invariants_per_mutation (e : Deal) (req : StageChangeRequest) (now : Nat) :
    (req.stage = .CLOSED_WON →
      (dealAfterStageChange e req now).closedStatus = some .WON ∧
      (dealAfterStageChange e req now).probability = 100 ∧
      (dealAfterStageChange e req now).weightedValue = e.value) ∧
    (req.stage = .CLOSED_LOST →
      (dealAfterStageChange e req now).closedStatus = some .LOST ∧
      (dealAfterStageChange e req now).probability = 0 ∧
      (dealAfterStageChange e req now).weightedValue = 0) ∧
    (¬ req.stage = .CLOSED_WON → ¬ req.stage = .CLOSED_LOST →
      (dealAfterStageChange e req now).closedStatus = e.closedStatus ∧
      (dealAfterStageChange e req now).probability = e.probability ∧
      (dealAfterStageChange e req now).weightedValue = e.weightedValue) ∧
    (∀ inp uid t d row, createDeal inp uid t = .ok (d, row) → d.closedStatus = none) := by
  refine ⟨?_, ?_, ?_, ?_⟩
  · intro h
    rw [dealAfterStageChange_won e req now h]
    exact ⟨rfl, rfl, rfl⟩
  · intro h
    obtain ⟨h1, h2, h3, _⟩ := dealAfterStageChange_lost_core e req now h
    exact ⟨h1, h2, h3⟩
  · intro h1 h2
    rw [dealAfterStageChange_open e req now h1 h2]
    exact ⟨rfl, rfl, rfl⟩
  · intro inp uid t d row hok
    unfold createDeal at hok
    cases hp : parseDealStage (historyToStageRaw inp.stage) with
    | none => rw [hp] at hok; exact Except.noConfusion hok
    | some s =>
      rw [hp] at hok
      simp only [Except.ok.injEq, Prod.mk.injEq] at hok
      rw [← hok.1]

/-- C3 amended, witness: reopening the concrete closed-won deal keeps
its WON status, probability and weighted value, and a concrete creation
has closedStatus unset. -/
theorem closed_invariants_per_mutation_witness :
    ((dealAfterStageChange wonDeal0 reopenReq 7).closedStatus = wonDeal0.closedStatus ∧
     (dealAfterStageChange wonDeal0 reopenReq 7).probability = wonDeal0.probability ∧
     (dealAfterStageChange wonDeal0 reopenReq 7).weightedValue = wonDeal0.weightedValue) ∧
    ((dealAfterStageChange deal0 ⟨.CLOSED_WON, none, none⟩ 7).closedStatus = some .WON ∧
     (dealAfterStageChange deal0 ⟨.CLOSED_WON, none, none⟩ 7).probability = 100 ∧
     (dealAfterStageChange deal0 ⟨.CLOSED_WON, none, none⟩ 7).weightedValue = deal0.value) :=
  ⟨(closed_invariants_per_mutation wonDeal0 reopenReq 7).2.2.1 (by decide) (by decide),
   (closed_invariants_per_mutation deal0 ⟨.CLOSED_WON, none, none⟩ 7).1 rfl⟩

/-- C5 counterexample: a closed-lost transition supplying the empty
string as lostReasonNote does not persist it: the previous note
survives, so a supplied note is not always written. -/
theorem closedLost_empty_note_not_persisted_cex :
    lostEmptyNoteReq.lostReasonNote = some "" ∧
    (dealAfterStageChange lostDeal0 lostEmptyNoteReq 7).lostReason = some .PRICE ∧
    (dealAfterStageChange lostDeal0 lostEmptyNoteReq 7).lostReasonNote = some "old note" ∧
    ¬ (dealAfterStageChange lostDeal0 lostEmptyNoteReq 7).lostReasonNote = some "" := by
  decide

/-- C5 amended: closing a deal as won sets probability 100, weighted
value equal to value, status WON and the close date; closing as lost
zeroes probability and weighted value, sets status LOST and the close
date, persists a supplied lostReason, and persists a supplied
lostReasonNote when it is non-empty. -/
theorem changeStage_closing_semantics (e : Deal) (req : StageChangeRequest) (now : Nat) :
    (req.stage = .CLOSED_WON →
      (dealAfterStageChange e req now).probability = 100 ∧
      (dealAfterStageChange e req now).weightedValue = e.value ∧
      (dealAfterStageChange e req now).closedStatus = some .WON ∧
      (dealAfterStageChange e req now).actualCloseDate = some now) ∧
    (req.stage = .CLOSED_LOST →
      (dealAfterStageChange e req now).probability = 0 ∧
      (dealAfterStageChange e req now).weightedValue = 0 ∧
      (dealAfterStageChange e req now).closedStatus = some .LOST ∧
      (dealAfterStageChange e req now).actualCloseDate = some now ∧
      (∀ r, req.lostReason = some r → (dealAfterStageChange e req now).lostReason = some r) ∧
      (∀ s, req.lostReasonNote = some s → ¬ s = "" →
        (dealAfterStageChange e req now).lostReasonNote = some s)) := by
  constructor
  · intro h
    rw [dealAfterStageChange_won e req now h]
    exact ⟨rfl, rfl, rfl, rfl⟩
  · intro h
    obtain ⟨h1, h2, h3, h4⟩ := dealAfterStageChange_lost_core e req now h
    exact ⟨h2, h3, h1, h4,
      fun r hr => dealAfterStageChange_lost_reason e req now h r hr,
      fun s hs hne => dealAfterStageChange_lost_note e req now h s hs hne⟩

/-- C5 amended, witness: concrete closed-won and closed-lost calls. -/
theorem changeStage_closing_semantics_witness :
    ((dealAfterStageChange deal0 ⟨.CLOSED_WON, none, none⟩ 9).probability = 100 ∧
     (dealAfterStageChange deal0 ⟨.CLOSED_WON, none, none⟩ 9).weightedValue = deal0.value ∧
     (dealAfterStageChange deal0 ⟨.CLOSED_WON, none, none⟩ 9).closedStatus = some .WON ∧
     (dealAfterStageChange deal0 ⟨.CLOSED_WON, none, none⟩ 9).actualCloseDate = some 9) ∧
    ((dealAfterStageChange deal0 ⟨.CLOSED_LOST, some .PRICE, some "too costly"⟩ 9).probability = 0 ∧
     (dealAfterStageChange deal0 ⟨.CLOSED_LOST, some .PRICE, some "too costly"⟩ 9).weightedValue = 0 ∧
     (dealAfterStageChange deal0 ⟨.CLOSED_LOST, some .PRICE, some "too costly"⟩ 9).lostReason = some .PRICE ∧
     (dealAfterStageChange deal0 ⟨.CLOSED_LOST, some .PRICE, some "too costly"⟩ 9).lostReasonNote = some "too costly") := by
  refine ⟨(changeStage_closing_semantics deal0 ⟨.CLOSED_WON, none, none⟩ 9).1 rfl, ?_⟩
  have h := (changeStage_closing_semantics deal0 ⟨.CLOSED_LOST, some .PRICE, some "too costly"⟩ 9).2 rfl
  exact ⟨h.1, h.2.1, h.2.2.2.2.1 .PRICE rfl, h.2.2.2.2.2 "too costly" rfl (by decide)⟩

/-- C7: a deal field update touching value or probability stores
weightedValue = value * probability / 100 computed from the pending new
value of the touched field and the stored value of the untouched one,
and an update touching neither leaves weightedValue unchanged. -/
theorem updateDeal_weightedValue (e : Deal) (inp : UpdateDealInput) :
    ((¬ inp.value = none ∨ ¬ inp.probability = none) →
      (updateDeal e inp).weightedValue =
        (inp.value.getD e.value) * (inp.probability.getD e.probability) / 100) ∧
    (inp.value = none → inp.probability = none →
      (updateDeal e inp).weightedValue = e.weightedValue) := by
  constructor
  · intro h
    have hsome : inp.value.isSome ∨ inp.probability.isSome := by
      rcases h with h | h
      · exact Or.inl (Option.ne_none_iff_isSome.mp h)
      · exact Or.inr (Option.ne_none_iff_isSome.mp h)
    unfold updateDeal
    rw [if_pos hsome]
  · intro hv hp
    unfold updateDeal
    rw [if_neg]
    simp [hv, hp]

/-- C7 witness: a concrete update supplying a new value only recomputes
from the pending value and the stored probability, and a concrete update
touching neither field keeps weightedValue. -/
theorem updateDeal_weightedValue_witness :
    ((updateDeal deal0 ⟨none, some 200, none, none, none, none, none⟩).weightedValue =
      ((some (200 : ℚ)).getD deal0.value) * ((none : Option ℚ).getD deal0.probability) / 100) ∧
    ((updateDeal deal0 ⟨some "Renamed", none, none, none, none, none, none⟩).weightedValue =
      deal0.weightedValue) :=
  ⟨(updateDeal_weightedValue deal0 ⟨none, some 200, none, none, none, none, none⟩).1
      (Or.inl (by decide)),
   (updateDeal_weightedValue deal0 ⟨some "Renamed", none, none, none, none, none, none⟩).2
      rfl rfl⟩

/-- C1: the import POST handler runs the destructive clear with no
backup step anywhere in its trace, and the client-side import flow still
posts the import request when its backup attempt fails, so an import can
reach the destructive clear without a completed backup. -/
theorem hubspot_import_clears_without_backup :
    (∀ req : HubspotImportRequest,
      occurrences ImportEffect.CreateBackup (hubspotImportTrace req) = 0) ∧
    hubspotImportTrace importReq0 =
      [.EnsureDefaultUser, .ClearSeedData, .RunImportCompanies] ∧
    occurrences ImportEffect.ClearSeedData (hubspotImportTrace importReq0) = 1 ∧
    handleImportClientTrace true false = [.BackupAttempt false, .PostImportRequest] := by
  refine ⟨?_, by decide, by decide, by decide⟩
  intro req
  unfold hubspotImportTrace
  split_ifs <;> simp [occurrences, List.filter_append]

/-- C4: creating a deal with the stage omitted writes the stale stage
name QUALIFIED into the nested history row, which is not a member of the
stage enum, so the create is rejected and in particular no history row
with toStage = INQUIRY (the schema default initial stage) exists; a
creation that supplies a stage does produce the single fromStage = null
history row for that stage. -/
theorem createDeal_omitted_stage_qualified_bug :
    historyToStageRaw none = "QUALIFIED" ∧
    parseDealStage "QUALIFIED" = none ∧
    defaultDealStage = .INQUIRY ∧
    ¬ historyToStageRaw none = dealStageToString defaultDealStage ∧
    createDeal createInpNoStage "u1" 0 = .error .invalidEnum ∧
    (createDeal createInpContract "u1" 0).map
      (fun p => (p.2.fromStage, p.2.toStage, p.1.stage)) =
      .ok (none, .CONTRACT, .CONTRACT) :=
  ⟨rfl, rfl, rfl, by decide, rfl, rfl⟩

/-! Counter lemmas for the importer loops: each record moves exactly one
of the imported, skipped and failed counters and leaves total alone. -/

theorem importCompaniesGo_counts (uid : String) (dateOracle : String → Option Nat)
    (now : Nat) (dbError : Nat → Option String)
    (recs : List (List (String × String))) :
    ∀ (i : Nat) (res : ImportResult) (cmap created : List (String × String)),
      (importCompaniesGo uid dateOracle now dbError recs i res cmap created).result.imported +
        (importCompaniesGo uid dateOracle now dbError recs i res cmap created).result.skipped +
        (importCompaniesGo uid dateOracle now dbError recs i res cmap created).result.failed =
        res.imported + res.skipped + res.failed + recs.length ∧
      (importCompaniesGo uid dateOracle now dbError recs i res cmap created).result.total =
        res.total := by
  induction recs with
  | nil =>
    intro i res cmap created
    simp [importCompaniesGo]
  | cons rec rest ih =>
    intro i res cmap created
    unfold importCompaniesGo
    split_ifs with hskip
    · dsimp only
      refine ⟨?_, ?_⟩
      · rw [(ih (i + 1) _ cmap created).1]; simp; omega
      · rw [(ih (i + 1) _ cmap created).2]
    · cases herr : dbError i with
      | some msg =>
        dsimp only
        refine ⟨?_, ?_⟩
        · rw [(ih (i + 1) _ cmap created).1]; simp; omega
        · rw [(ih (i + 1) _ cmap created).2]
      | none =>
        dsimp only
        refine ⟨?_, ?_⟩
        · rw [(ih (i + 1) _ _ _).1]; simp; omega
        · rw [(ih (i + 1) _ _ _).2]

theorem importContactsGo_counts (uid : String) (companyMap companies : List (String × String))
    (dateOracle : String → Option Nat) (now : Nat) (dbError : Nat → Option String)
    (recs : List (List (String × String))) :
    ∀ (i : Nat) (res : ImportResult) (created : List ContactCreateData),
      (importContactsGo uid companyMap companies dateOracle now dbError recs i res created).1.imported +
        (importContactsGo uid companyMap companies dateOracle now dbError recs i res created).1.skipped +
        (importContactsGo uid companyMap companies dateOracle now dbError recs i res created).1.failed =
        res.imported + res.skipped + res.failed + recs.length ∧
      (importContactsGo uid companyMap companies dateOracle now dbError recs i res created).1.total =
        res.total := by
  induction recs with
  | nil =>
    intro i res created
    simp [importContactsGo]
  | cons rec rest ih =>
    intro i res created
    unfold importContactsGo
    split_ifs with hskip
    · refine ⟨?_, ?_⟩
      · rw [(ih (i + 1) _ created).1]; simp; omega
      · rw [(ih (i + 1) _ created).2]
    · cases herr : dbError i with
      | some msg =>
        refine ⟨?_, ?_⟩
        · rw [(ih (i + 1) _ created).1]; simp; omega
        · rw [(ih (i + 1) _ created).2]
      | none =>
        refine ⟨?_, ?_⟩
        · rw [(ih (i + 1) _ _).1]; simp; omega
        · rw [(ih (i + 1) _ _).2]

theorem importDealsGo_counts (defaultCompanyId uid : String)
    (dateOracle : String → Option Nat) (now : Nat) (dbError : Nat → Option String)
    (recs : List (List (String × String))) :
    ∀ (i : Nat) (res : ImportResult) (created : List DealCreateInputData),
      (importDealsGo defaultCompanyId uid dateOracle now dbError recs i res created).1.imported +
        (importDealsGo defaultCompanyId uid dateOracle now dbError recs i res created).1.skipped +
        (importDealsGo defaultCompanyId uid dateOracle now dbError recs i res created).1.failed =
        res.imported + res.skipped + res.failed + recs.length ∧
      (importDealsGo defaultCompanyId uid dateOracle now dbError recs i res created).1.total =
        res.total := by
  induction recs with
  | nil =>
    intro i res created
    simp [importDealsGo]
  | cons rec rest ih =>
    intro i res created
    unfold importDealsGo
    split_ifs with hskip
    · refine ⟨?_, ?_⟩
      · rw [(ih (i + 1) _ created).1]; simp; omega
      · rw [(ih (i + 1) _ created).2]
    · cases herr : dbError i with
      | some msg =>
        refine ⟨?_, ?_⟩
        · rw [(ih (i + 1) _ created).1]; simp; omega
        · rw [(ih (i + 1) _ created).2]
      | none =>
        refine ⟨?_, ?_⟩
        · rw [(ih (i + 1) _ _).1]; simp; omega
        · rw [(ih (i + 1) _ _).2]

/-- C8: for each of the companies, contacts and deals importers, every
parsed record lands in exactly one of imported, skipped or failed, so
imported + skipped + failed equals total, the number of parsed
records. -/
theorem import_result_counts (companiesCsv contactsCsv dealsCsv uid : String)
    (dateOracle : String → Option Nat) (now : Nat)
    (e1 e2 e3 : Nat → Option String) (cmap companies : List (String × String)) :
    ((importCompanies companiesCsv uid dateOracle now e1).result.imported +
       (importCompanies companiesCsv uid dateOracle now e1).result.skipped +
       (importCompanies companiesCsv uid dateOracle now e1).result.failed =
       (importCompanies companiesCsv uid dateOracle now e1).result.total ∧
     (importCompanies companiesCsv uid dateOracle now e1).result.total =
       (parseCSV companiesCsv).length) ∧
    ((importContacts contactsCsv uid cmap companies dateOracle now e2).1.imported +
       (importContacts contactsCsv uid cmap companies dateOracle now e2).1.skipped +
       (importContacts contactsCsv uid cmap companies dateOracle now e2).1.failed =
       (importContacts contactsCsv uid cmap companies dateOracle now e2).1.total ∧
     (importContacts contactsCsv uid cmap companies dateOracle now e2).1.total =
       (parseCSV contactsCsv).length) ∧
    ((importDeals dealsCsv uid companies dateOracle now e3).1.imported +
       (importDeals dealsCsv uid companies dateOracle now e3).1.skipped +
       (importDeals dealsCsv uid companies dateOracle now e3).1.failed =
       (importDeals dealsCsv uid companies dateOracle now e3).1.total ∧
     (importDeals dealsCsv uid companies dateOracle now e3).1.total =
       (parseCSV dealsCsv).length) := by
  refine ⟨⟨?_, ?_⟩, ⟨?_, ?_⟩, ⟨?_, ?_⟩⟩
  · unfold importCompanies
    obtain ⟨h1, h2⟩ := importCompaniesGo_counts uid dateOracle now e1
      (parseCSV companiesCsv) 0 ⟨0, 0, 0, (parseCSV companiesCsv).length, []⟩ [] []
    rw [h1, h2]
    simp
  · exact (importCompaniesGo_counts uid dateOracle now e1
      (parseCSV companiesCsv) 0 ⟨0, 0, 0, (parseCSV companiesCsv).length, []⟩ [] []).2
  · unfold importContacts
    obtain ⟨h1, h2⟩ := importContactsGo_counts uid cmap companies dateOracle now e2
      (parseCSV contactsCsv) 0 ⟨0, 0, 0, (parseCSV contactsCsv).length, []⟩ []
    rw [h1, h2]
    simp
  · exact (importContactsGo_counts uid cmap companies dateOracle now e2
      (parseCSV contactsCsv) 0 ⟨0, 0, 0, (parseCSV contactsCsv).length, []⟩ []).2
  · unfold importDeals
    obtain ⟨h1, h2⟩ := importDealsGo_counts
      (match companies.head? with | some c => c.1 | none => "company-unknown") uid
      dateOracle now e3 (parseCSV dealsCsv) 0 ⟨0, 0, 0, (parseCSV dealsCsv).length, []⟩ []
    rw [h1, h2]
    simp
  · exact (importDealsGo_counts
      (match companies.head? with | some c => c.1 | none => "company-unknown") uid
      dateOracle now e3 (parseCSV dealsCsv) 0 ⟨0, 0, 0, (parseCSV dealsCsv).length, []⟩ []).2

/-- C10: the create payload of the deals importer sets exactly name, value,
stage, expectedCloseDate, companyId, ownerId and createdAt, never
probability or weightedValue, so the probability of a created deal and
weighted value are the schema defaults whatever the imported value; in
particular a concrete imported deal of value 1000 under defaults
probability 50 and weightedValue 0 does not satisfy the weighted-value
relation. -/
theorem importDeals_payload_frame :
    (∀ (rec : List (String × String)) (defaultCompanyId uid : String)
        (dateOracle : String → Option Nat) (now : Nat),
      (importDealData rec defaultCompanyId uid dateOracle now).probability = none ∧
      (importDealData rec defaultCompanyId uid dateOracle now).weightedValue = none ∧
      (importDealData rec defaultCompanyId uid dateOracle now).currency = none ∧
      (importDealData rec defaultCompanyId uid dateOracle now).actualCloseDate = none ∧
      (importDealData rec defaultCompanyId uid dateOracle now).closedStatus = none ∧
      (importDealData rec defaultCompanyId uid dateOracle now).lostReason = none ∧
      (importDealData rec defaultCompanyId uid dateOracle now).lostReasonNote = none ∧
      (importDealData rec defaultCompanyId uid dateOracle now).stageChangedAt = none ∧
      (importDealData rec defaultCompanyId uid dateOracle now).name =
        some (jsTrim ((recGet rec "Deal Name").getD "")) ∧
      (importDealData rec defaultCompanyId uid dateOracle now).stage =
        some (mapDealStage ((recGet rec "Deal Stage").getD "")) ∧
      (importDealData rec defaultCompanyId uid dateOracle now).companyId = some defaultCompanyId ∧
      (importDealData rec defaultCompanyId uid dateOracle now).ownerId = some uid ∧
      (importDealData rec defaultCompanyId uid dateOracle now).createdAt = some now ∧
      (importDealData rec defaultCompanyId uid dateOracle now).value.isSome = true ∧
      (importDealData rec defaultCompanyId uid dateOracle now).expectedCloseDate.isSome = true ∧
      (∀ defs : DealDefaults,
        materializedProbability (importDealData rec defaultCompanyId uid dateOracle now) defs =
          defs.probability ∧
        materializedWeightedValue (importDealData rec defaultCompanyId uid dateOracle now) defs =
          defs.weightedValue)) ∧
    (materializedWeightedValue
        (importDealData [("Deal Name", "Big")] "c1" "u1" (fun _ => none) 0)
        ⟨50, 0⟩ = 0 ∧
      (importDealData [("Deal Name", "Big")] "c1" "u1" (fun _ => none) 0).value =
        some 1000 ∧
      materializedProbability
        (importDealData [("Deal Name", "Big")] "c1" "u1" (fun _ => none) 0)
        ⟨50, 0⟩ = 50 ∧
      ¬ (0 : ℚ) = 1000 * 50 / 100) := by
  constructor
  · intro rec defaultCompanyId uid dateOracle now
    exact ⟨rfl, rfl, rfl, rfl, rfl, rfl, rfl, rfl, rfl, rfl, rfl, rfl, rfl, rfl, rfl,
      fun defs => ⟨rfl, rfl⟩⟩
  · refine ⟨rfl, rfl, rfl, by norm_num⟩

/-! Lemmas about the CSV scanner on plain characters. -/

theorem dropWhile_eq_self_of_all_false {α : Type} (p : α → Bool) (l : List α)
    (h : ∀ x ∈ l, p x = false) : l.dropWhile p = l := by
  cases l with
  | nil => rfl
  | cons x xs => simp [List.dropWhile, h x (List.mem_cons_self x xs)]

theorem jsTrimList_eq_self (l : List Char) (h : ∀ x ∈ l, isJsSpace x = false) :
    jsTrimList l = l := by
  unfold jsTrimList
  rw [dropWhile_eq_self_of_all_false _ _ h,
    dropWhile_eq_self_of_all_false _ _ (fun x hx => h x (List.mem_reverse.mp hx)),
    List.reverse_reverse]

theorem splitOnChar_eq_single (sep : Char) (l : List Char) (h : ∀ x ∈ l, ¬ x = sep) :
    splitOnChar sep l = [l] := by
  induction l with
  | nil => rfl
  | cons x xs ih =>
    have hx : ¬ x = sep := h x (List.mem_cons_self x xs)
    have hxs := ih (fun y hy => h y (List.mem_cons_of_mem x hy))
    simp [splitOnChar, hx, hxs]

theorem parseCSVLineAux_plains (xs : List Char) (h : ∀ x ∈ xs, plainChar x) :
    ∀ (rest cur : List Char) (res : List (List Char)),
      parseCSVLineAux (xs ++ rest) true cur res = parseCSVLineAux rest true (cur ++ xs) res := by
  induction xs with
  | nil => intro rest cur res; simp
  | cons x xs ih =>
    intro rest cur res
    obtain ⟨hq, hcomma, -, -⟩ := h x (List.mem_cons_self x xs)
    have hxs := ih (fun y hy => h y (List.mem_cons_of_mem x hy))
    rw [List.cons_append, parseCSVLineAux.eq_def]
    simp only [hq, hcomma]
    simp
    rw [hxs rest (cur ++ [x]) res, List.append_assoc]
    rfl

theorem parseCSVLineAux_open_quote (rest cur : List Char) (res : List (List Char)) :
    parseCSVLineAux ('"' :: rest) false cur res = parseCSVLineAux rest true cur res := by
  rw [parseCSVLineAux.eq_def]
  simp

theorem parseCSVLineAux_comma_quoted (rest cur : List Char) (res : List (List Char)) :
    parseCSVLineAux (',' :: rest) true cur res = parseCSVLineAux rest true (cur ++ [',']) res := by
  rw [parseCSVLineAux.eq_def]
  simp

theorem parseCSVLineAux_escaped_quote (rest cur : List Char) (res : List (List Char)) :
    parseCSVLineAux ('"' :: '"' :: rest) true cur res =
      parseCSVLineAux rest true (cur ++ ['"']) res := by
  rw [parseCSVLineAux.eq_def]
  simp

theorem parseCSVLineAux_final_quote (cur : List Char) (res : List (List Char)) :
    parseCSVLineAux ['"'] true cur res = res ++ [cur] := by
  rw [parseCSVLineAux.eq_def]
  simp [parseCSVLineAux]

theorem parseCSVLineList_quoted (a b c : List Char)
    (ha : ∀ x ∈ a, plainChar x) (hb : ∀ x ∈ b, plainChar x) (hc : ∀ x ∈ c, plainChar x) :
    parseCSVLineList ('"' :: (a ++ (',' :: (b ++ ('"' :: ('"' :: (c ++ ['"']))))))) =
      [a ++ (',' :: (b ++ ('"' :: c)))] := by
  unfold parseCSVLineList
  rw [parseCSVLineAux_open_quote]
  rw [parseCSVLineAux_plains a ha]
  rw [parseCSVLineAux_comma_quoted]
  rw [parseCSVLineAux_plains b hb]
  rw [parseCSVLineAux_escaped_quote]
  rw [parseCSVLineAux_plains c hc]
  rw [parseCSVLineAux_final_quote]
  simp

theorem splitOnChar_cons_sep (sep : Char) (rest : List Char) :
    splitOnChar sep (sep :: rest) = [] :: splitOnChar sep rest := by
  rw [splitOnChar.eq_def]
  simp

theorem splitOnChar_cons_ne (sep x : Char) (rest : List Char) (h : ¬ x = sep) :
    splitOnChar sep (x :: rest) =
      match splitOnChar sep rest with
      | [] => [[x]]
      | l :: ls => (x :: l) :: ls := by
  rw [splitOnChar.eq_def]
  simp [h]

theorem stripEdgeQuotes_eq_self (l : List Char) (h1 : ¬ l.head? = some '"')
    (h2 : ¬ l.getLast? = some '"') : stripEdgeQuotes l = l := by
  unfold stripEdgeQuotes
  rw [if_neg h1, if_neg h2]

theorem occurrences_append {α : Type} [DecidableEq α] (x : α) (l1 l2 : List α) :
    occurrences x (l1 ++ l2) = occurrences x l1 + occurrences x l2 := by
  simp [occurrences, List.filter_append]

theorem occurrences_cons_self {α : Type} [DecidableEq α] (x : α) (l : List α) :
    occurrences x (x :: l) = occurrences x l + 1 := by
  simp [occurrences, List.filter_cons]

theorem occurrences_cons_ne {α : Type} [DecidableEq α] (x y : α) (l : List α)
    (h : ¬ y = x) : occurrences x (y :: l) = occurrences x l := by
  simp [occurrences, List.filter_cons, h]

theorem occurrences_zero_of_plain (x : Char) (l : List Char)
    (hx : ∀ y ∈ l, plainChar y) (h : ¬ plainChar x) : occurrences x l = 0 := by
  induction l with
  | nil => rfl
  | cons y ys ih =>
    have hy := hx y (List.mem_cons_self y ys)
    have hne : ¬ y = x := fun he => h (he ▸ hy)
    rw [occurrences_cons_ne x y ys hne]
    exact ih (fun z hz => hx z (List.mem_cons_of_mem y hz))

/-- C9 counterexample: on the line where the escaped quote ends the
quoted text, the edge-quote strip of line 47 eats the literal quote the
scanner produced: the parsed field keeps the comma but has zero quote
characters instead of exactly one. -/
theorem parseCSV_trailing_escaped_quote_cex :
    parseCSV "h\n\"a,b\"\"\"" = [[("h", "a,b")]] ∧
    occurrences '"' ("a,b".data) = 0 ∧
    occurrences ',' ("a,b".data) = 1 := by
  decide

/-- C9 amended: for a line holding one quoted field with an embedded
comma and an escaped quote, where the field text consists of characters
that are not quotes, commas, newlines or whitespace and the escaped
quote is not the last character of the quoted text, parsing yields the
single field with the comma and exactly one literal quote preserved. -/
theorem parseCSV_quoted_field_semantics (a b c : List Char)
    (ha : ∀ x ∈ a, plainChar x) (hb : ∀ x ∈ b, plainChar x) (hc : ∀ x ∈ c, plainChar x)
    (hcne : ¬ c = []) :
    parseCSV ⟨'h' :: '\n' :: '"' :: (a ++ (',' :: (b ++ ('"' :: ('"' :: (c ++ ['"']))))))⟩ =
      [[("h", ⟨a ++ (',' :: (b ++ ('"' :: c)))⟩)]] ∧
    occurrences ',' (a ++ (',' :: (b ++ ('"' :: c)))) = 1 ∧
    occurrences '"' (a ++ (',' :: (b ++ ('"' :: c)))) = 1 := by
  have hmemR : ∀ x ∈ ('"' :: (a ++ (',' :: (b ++ ('"' :: ('"' :: (c ++ ['"']))))))),
      ¬ x = '\n' ∧ isJsSpace x = false := by
    intro x hx
    simp only [List.mem_cons, List.mem_append, List.mem_singleton, List.not_mem_nil,
      or_false] at hx
    rcases hx with rfl | hx | rfl | hx | rfl | rfl | hx | rfl
    · exact ⟨by decide, by decide⟩
    · exact ⟨(ha x hx).2.2.1, (ha x hx).2.2.2⟩
    · exact ⟨by decide, by decide⟩
    · exact ⟨(hb x hx).2.2.1, (hb x hx).2.2.2⟩
    · exact ⟨by decide, by decide⟩
    · exact ⟨by decide, by decide⟩
    · exact ⟨(hc x hx).2.2.1, (hc x hx).2.2.2⟩
    · exact ⟨by decide, by decide⟩
  have hmemF : ∀ x ∈ (a ++ (',' :: (b ++ ('"' :: c)))), isJsSpace x = false := by
    intro x hx
    simp only [List.mem_cons, List.mem_append] at hx
    rcases hx with hx | rfl | hx | rfl | hx
    · exact (ha x hx).2.2.2
    · decide
    · exact (hb x hx).2.2.2
    · decide
    · exact (hc x hx).2.2.2
  set R : List Char := '"' :: (a ++ (',' :: (b ++ ('"' :: ('"' :: (c ++ ['"'])))))) with hR
  set field : List Char := a ++ (',' :: (b ++ ('"' :: c))) with hField
  have hRsingle : splitOnChar '\n' R = [R] :=
    splitOnChar_eq_single _ _ (fun x hx => (hmemR x hx).1)
  have hsplit : splitOnChar '\n' ('h' :: '\n' :: R) = [['h'], R] := by
    rw [splitOnChar_cons_ne '\n' 'h' _ (by decide), splitOnChar_cons_sep, hRsingle]
  have hRtrim : jsTrimList R = R := jsTrimList_eq_self _ (fun x hx => (hmemR x hx).2)
  have hvalues : parseCSVLineList R = [field] := by
    rw [hR, hField]
    exact parseCSVLineList_quoted a b c ha hb hc
  have hhead : ¬ field.head? = some '"' := by
    rw [hField]
    cases a with
    | nil => simp
    | cons x xs =>
      have hx := (ha x (List.mem_cons_self x xs)).1
      simpa using hx
  have hlast : ¬ field.getLast? = some '"' := by
    rcases List.eq_nil_or_concat c with hnil | ⟨L, z, hcz⟩
    · exact absurd hnil hcne
    · have hz := (hc z (by rw [hcz]; simp)).1
      have hsplitfield : field = (a ++ (',' :: (b ++ ('"' :: L)))) ++ [z] := by
        rw [hField, hcz]
        simp
      rw [hsplitfield, List.getLast?_concat]
      simpa using hz
  have hstrip : stripEdgeQuotes field = field := stripEdgeQuotes_eq_self _ hhead hlast
  have htrim : jsTrimList field = field := jsTrimList_eq_self _ hmemF
  refine ⟨?_, ?_, ?_⟩
  · show parseCSV ⟨'h' :: '\n' :: R⟩ = [[("h", ⟨field⟩)]]
    unfold parseCSV
    rw [show (String.mk ('h' :: '\n' :: R)).data = 'h' :: '\n' :: R from rfl]
    rw [hsplit]
    rw [show List.filter (fun l => ¬ jsTrimList l = []) [['h'], R] = [['h'], R] from by
      simp [List.filter_cons, hRtrim, hR, show ¬ jsTrimList ['h'] = [] from by decide]]
    dsimp only
    rw [show parseCSVLineList ['h'] = [['h']] from rfl]
    simp only [List.foldr_cons, List.foldr_nil, hvalues]
    rw [if_pos (by simp)]
    simp [buildRecord, hstrip, htrim]
  · rw [hField]
    rw [occurrences_append, occurrences_cons_self, occurrences_append,
      occurrences_cons_ne _ _ _ (by decide),
      occurrences_zero_of_plain ',' a ha (by decide),
      occurrences_zero_of_plain ',' b hb (by decide),
      occurrences_zero_of_plain ',' c hc (by decide)]
  · rw [hField]
    rw [occurrences_append, occurrences_cons_ne _ _ _ (by decide), occurrences_append,
      occurrences_cons_self,
      occurrences_zero_of_plain '"' a ha (by decide),
      occurrences_zero_of_plain '"' b hb (by decide),
      occurrences_zero_of_plain '"' c hc (by decide)]

/-- C9 amended, witness: the concrete quoted line x,y""z in a one-column
file parses to the single field with the comma and one quote kept. -/
theorem parseCSV_quoted_field_semantics_witness :
    parseCSV ⟨'h' :: '\n' :: '"' :: (['x'] ++ (',' :: (['y'] ++ ('"' :: ('"' :: (['z'] ++ ['"']))))))⟩ =
      [[("h", ⟨['x'] ++ (',' :: (['y'] ++ ('"' :: ['z'])))⟩)]] ∧
    occurrences ',' (['x'] ++ (',' :: (['y'] ++ ('"' :: ['z'])))) = 1 ∧
    occurrences '"' (['x'] ++ (',' :: (['y'] ++ ('"' :: ['z'])))) = 1 :=
  parseCSV_quoted_field_semantics ['x'] ['y'] ['z']
    (by decide) (by decide) (by decide) (by decide)

end SdhCrm